import Mathlib

/-!
Verification development for the SimplyPhaser DSP core.

Shallow embedding of the C++ sources:
  * src/Shared/Kernel/Biquad.h            (coefficients, state, four transforms)
  * src/Shared/Kernel/PhaseShifter.h      (six-band all-pass cascade with feedback)
  * src/Shared/Kernel/KernelEventProcessor.h (event-interleaved render loop, bypass)
  * src/Shared/Kernel/SimplyPhaserKernel.h   (parameter get/set)
  * src/Packages/Sources/Kernel/C++/Kernel.hpp (per-frame render loop)

Sample values (C++ float/double) are embedded as real numbers; machine frame
counters (uint32) as naturals with explicit reduction modulo 2^32; C++ int as ℤ.
-/

namespace SimplyPhaser

/-! ## Biquad.h: coefficients and state -/

/-- Filter coefficients, from `Biquad::Coefficients` (Biquad.h lines 17 to 35).
The a coefficients are numerator terms of the transfer function, the b
coefficients denominator terms. -/
structure Coefficients where
  a0 : ℝ
  a1 : ℝ
  a2 : ℝ
  b1 : ℝ
  b2 : ℝ

/-- Mutable filter state, from `Biquad::State` (Biquad.h lines 94 to 101). -/
structure BqState where
  x_z1 : ℝ
  x_z2 : ℝ
  y_z1 : ℝ
  y_z2 : ℝ

/-- The default-constructed coefficients: all zero (Biquad.h line 19). -/
def Coefficients.zero : Coefficients := ⟨0, 0, 0, 0, 0⟩

/-- The default-constructed state: all zero (Biquad.h line 96). -/
def BqState.zero : BqState := ⟨0, 0, 0, 0⟩

/-- The smallest positive normalized 32-bit float magnitude,
`std::numeric_limits<float>::min()` = 2^(-126), used by the denormal guard. -/
noncomputable def fltMin : ℝ := (2 : ℝ) ^ (-126 : ℤ)

/-- `Transform::Base::forceMinToZero` (Biquad.h lines 109 to 112): a value whose
magnitude is positive but below the smallest normalized float is forced to 0. -/
noncomputable def forceMinToZero (value : ℝ) : ℝ :=
  if (value > 0 ∧ value < fltMin) ∨ (value < 0 ∧ value > -fltMin) then 0 else value

/-! ## Biquad.h: the four transform variants

Each transform takes the input sample, the current state and the coefficients,
and returns the output sample together with the updated state. -/

/-- `Transform::Direct::transform` (Biquad.h lines 118 to 127). -/
noncomputable def Direct.transform (input : ℝ) (s : BqState) (c : Coefficients) :
    ℝ × BqState :=
  let output := forceMinToZero
    (c.a0 * input + c.a1 * s.x_z1 + c.a2 * s.x_z2 - c.b1 * s.y_z1 - c.b2 * s.y_z2)
  (output, ⟨input, s.x_z1, output, s.y_z1⟩)

/-- `Transform::Direct::storageComponent` (Biquad.h lines 129 to 132). -/
def Direct.storageComponent (s : BqState) (c : Coefficients) : ℝ :=
  c.a1 * s.x_z1 + c.a2 * s.x_z2 - c.b1 * s.y_z1 - c.b2 * s.y_z2

/-- `Transform::Canonical::transform` (Biquad.h lines 138 to 145). -/
noncomputable def Canonical.transform (input : ℝ) (s : BqState) (c : Coefficients) :
    ℝ × BqState :=
  let theta := input - c.b1 * s.x_z1 - c.b2 * s.x_z2
  let output := forceMinToZero (c.a0 * theta + c.a1 * s.x_z1 + c.a2 * s.x_z2)
  (output, ⟨theta, s.x_z1, s.y_z1, s.y_z2⟩)

/-- `Transform::Canonical::storageComponent` (Biquad.h line 147). -/
def Canonical.storageComponent (_ : BqState) (_ : Coefficients) : ℝ := 0

/-- `Transform::DirectTranspose::transform` (Biquad.h lines 153 to 162). -/
noncomputable def DirectTranspose.transform (input : ℝ) (s : BqState) (c : Coefficients) :
    ℝ × BqState :=
  let theta := input + s.y_z1
  let output := forceMinToZero (c.a0 * theta + s.x_z1)
  (output, ⟨s.x_z2 + c.a1 * theta, c.a2 * theta, s.y_z2 - c.b1 * theta, -c.b2 * theta⟩)

/-- `Transform::DirectTranspose::storageComponent` (Biquad.h line 164). -/
def DirectTranspose.storageComponent (_ : BqState) (_ : Coefficients) : ℝ := 0

/-- `Transform::CanonicalTranspose::transform` (Biquad.h lines 170 to 175): the
output is the flushed value of a0 * input + x_z1, and the two state registers
are refreshed using that (already flushed) output. -/
noncomputable def CanonicalTranspose.transform (input : ℝ) (s : BqState) (c : Coefficients) :
    ℝ × BqState :=
  let output := forceMinToZero (c.a0 * input + s.x_z1)
  (output, ⟨c.a1 * input - c.b1 * output + s.x_z2, c.a2 * input - c.b2 * output,
            s.y_z1, s.y_z2⟩)

/-- `Transform::CanonicalTranspose::storageComponent` (Biquad.h line 177). -/
def CanonicalTranspose.storageComponent (s : BqState) (_ : Coefficients) : ℝ := s.x_z1

/-! ## Biquad.h: coefficient generators -/

/-- `Biquad::Coefficients::APF1` (Biquad.h lines 71 to 75): the first-order
all-pass coefficient generator, translated from the source. -/
noncomputable def APF1 (sampleRate frequency : ℝ) : Coefficients :=
  let tangent := Real.tan (Real.pi * frequency / sampleRate)
  let alpha := (tangent - 1) / (tangent + 1)
  ⟨alpha, 1, 0, alpha, 0⟩

/-- The APF1 coefficients as the specification words them: the five coefficients
are (alpha, 1, 0, alpha, 0) with alpha = (tan(pi f / s) - 1) / (tan(pi f / s) + 1).
Written from the spec text for comparison with the source translation `APF1`. -/
noncomputable def specAPF1 (s f : ℝ) : Coefficients :=
  ⟨(Real.tan (Real.pi * f / s) - 1) / (Real.tan (Real.pi * f / s) + 1), 1, 0,
   (Real.tan (Real.pi * f / s) - 1) / (Real.tan (Real.pi * f / s) + 1), 0⟩

/-! ## Claim C5 -/

/-- Claim C5: for every sample rate s > 0 and frequency f, the APF1 coefficient
generator returns the five coefficients (alpha, 1, 0, alpha, 0) where
alpha = (tan(pi f / s) - 1) / (tan(pi f / s) + 1). -/
theorem apf1_matches_spec (s f : ℝ) (_hs : 0 < s) : APF1 s f = specAPF1 s f := rfl

/-- Closed instance of C5 at sample rate 2 and frequency 1. -/
theorem apf1_matches_spec_witness : 0 < (2 : ℝ) ∧ APF1 2 1 = specAPF1 2 1 :=
  ⟨by norm_num, apf1_matches_spec 2 1 (by norm_num)⟩

/-! ## Claim C6 -/

/-- The denormal guard leaves only exact zero or a value of magnitude at least
the smallest normalized float. -/
theorem forceMinToZero_flushes (v : ℝ) :
    forceMinToZero v = 0 ∨ fltMin ≤ |forceMinToZero v| := by
  have hm : 0 < fltMin := by
    have : (0 : ℝ) < (2 : ℝ) ^ (-126 : ℤ) := by positivity
    simpa [fltMin] using this
  unfold forceMinToZero
  by_cases h : (v > 0 ∧ v < fltMin) ∨ (v < 0 ∧ v > -fltMin)
  · simp [h]
  · simp only [h, if_false]
    push_neg at h
    rcases lt_trichotomy v 0 with hv | hv | hv
    · right
      have := h.2 hv
      rw [abs_of_neg hv]
      linarith
    · left; exact hv
    · right
      have := h.1 hv
      rw [abs_of_pos hv]
      linarith

/-- Claim C6: the canonical-transposed transform returns
output = flush(a0 * input + x_z1), then stores
x_z1 := a1 * input - b1 * output + x_z2 and x_z2 := a2 * input - b2 * output;
its storage component is x_z1; and every one of the four transform variants
forces any output whose absolute value is below the smallest normalized 32-bit
float magnitude to zero (the output is either exactly zero or of magnitude at
least that bound). -/
theorem canonicalTranspose_contract (input : ℝ) (s : BqState) (c : Coefficients) :
    (CanonicalTranspose.transform input s c).1 = forceMinToZero (c.a0 * input + s.x_z1)
    ∧ (CanonicalTranspose.transform input s c).2.x_z1
        = c.a1 * input - c.b1 * (CanonicalTranspose.transform input s c).1 + s.x_z2
    ∧ (CanonicalTranspose.transform input s c).2.x_z2
        = c.a2 * input - c.b2 * (CanonicalTranspose.transform input s c).1
    ∧ CanonicalTranspose.storageComponent s c = s.x_z1
    ∧ ((CanonicalTranspose.transform input s c).1 = 0
        ∨ fltMin ≤ |(CanonicalTranspose.transform input s c).1|)
    ∧ ((Canonical.transform input s c).1 = 0 ∨ fltMin ≤ |(Canonical.transform input s c).1|)
    ∧ ((Direct.transform input s c).1 = 0 ∨ fltMin ≤ |(Direct.transform input s c).1|)
    ∧ ((DirectTranspose.transform input s c).1 = 0
        ∨ fltMin ≤ |(DirectTranspose.transform input s c).1|) := by
  exact ⟨rfl, rfl, rfl, rfl, forceMinToZero_flushes _, forceMinToZero_flushes _,
    forceMinToZero_flushes _, forceMinToZero_flushes _⟩

/-! ## PhaseShifter.h: the six-band all-pass cascade

`PhaseShifter<T>::AllPassFilter` is `Biquad::CanonicalTranspose<T>`, i.e. a
`Biquad::Filter` (coefficients plus state) whose transformer is the
canonical-transposed structure. -/

/-- A `Biquad::Filter` instance specialised to the canonical-transposed
transformer (Biquad.h lines 186 to 233, used through PhaseShifter.h line 23). -/
structure AllPassFilter where
  coefficients : Coefficients
  state : BqState

/-- Default-constructed filter: zero coefficients, zero state. -/
def AllPassFilter.default : AllPassFilter := ⟨Coefficients.zero, BqState.zero⟩

/-- `Filter::gainValue` (Biquad.h line 222): the a0 coefficient. -/
def AllPassFilter.gainValue (f : AllPassFilter) : ℝ := f.coefficients.a0

/-- `Filter::storageComponent` (Biquad.h line 227) for the canonical-transposed
transformer: the x_z1 state register. -/
def AllPassFilter.storageComponent (f : AllPassFilter) : ℝ :=
  CanonicalTranspose.storageComponent f.state f.coefficients

/-- `Filter::transform` (Biquad.h line 217): run the transformer, returning the
output together with the filter holding the updated state. -/
noncomputable def AllPassFilter.transform (f : AllPassFilter) (input : ℝ) :
    ℝ × AllPassFilter :=
  let r := CanonicalTranspose.transform input f.state f.coefficients
  (r.1, ⟨f.coefficients, r.2⟩)

/-- `PhaseShifter::Band` (PhaseShifter.h lines 25 to 28). -/
structure Band where
  frequencyMin : ℝ
  frequencyMax : ℝ

/-- `PhaseShifter::ideal` band table (PhaseShifter.h lines 32 to 39). -/
def idealBands : List Band :=
  [⟨16, 1600⟩, ⟨33, 3300⟩, ⟨48, 4800⟩, ⟨98, 9800⟩, ⟨160, 16000⟩, ⟨260, 20480⟩]

/-- `PhaseShifter::nationalSemiconductor` band table (PhaseShifter.h lines 41 to 48). -/
def nationalSemiconductorBands : List Band :=
  [⟨32, 1500⟩, ⟨68, 3400⟩, ⟨96, 4800⟩, ⟨212, 10000⟩, ⟨320, 16000⟩, ⟨636, 20480⟩]

/-- Modelled from the spec: `DSP::bipolarModulation` lives in DSP.h, which is
not among the sources; the spec gives
bipolarModulation(m, lo, hi) = lo + (m + 1) / 2 * (hi - lo). -/
noncomputable def bipolarModulation (modulation lo hi : ℝ) : ℝ :=
  lo + (modulation + 1) / 2 * (hi - lo)

/-- `PhaseShifter::updateCoefficients` (PhaseShifter.h lines 110 to 117): walk
filters and bands in lock-step (the `zip` helper stops at the shorter range,
leaving any remaining filters untouched) and install fresh APF1 coefficients
for the band frequency selected by the modulation value. -/
noncomputable def updFilters (sampleRate modulation : ℝ) :
    List AllPassFilter → List Band → List AllPassFilter
  | [], _ => []
  | fs, [] => fs
  | f :: fs, b :: bs =>
      ⟨APF1 sampleRate (bipolarModulation modulation b.frequencyMin b.frequencyMax),
       f.state⟩ :: updFilters sampleRate modulation fs bs

/-- `PhaseShifter` state (PhaseShifter.h lines 119 to 124): band table, sample
rate, intensity, update period, sample counter and the six all-pass filters. -/
structure PhaseShifter where
  bands : List Band
  sampleRate : ℝ
  intensity : ℝ
  samplesPerFilterUpdate : ℤ
  sampleCounter : ℤ
  filters : List AllPassFilter

/-- `PhaseShifter::setIntensity` (PhaseShifter.h lines 62 to 64). -/
def PhaseShifter.setIntensity (ps : PhaseShifter) (intensity : ℝ) : PhaseShifter :=
  { ps with intensity := intensity }

/-- `PhaseShifter::initialize` (PhaseShifter.h lines 56 to 60): store the sample
rate and intensity, then compute coefficients with modulation 0. -/
noncomputable def PhaseShifter.initState (ps : PhaseShifter) (sampleRate intensity : ℝ) :
    PhaseShifter :=
  { ps with sampleRate := sampleRate, intensity := intensity,
            filters := updFilters sampleRate 0 ps.filters ps.bands }

/-- The conditional coefficient refresh at the top of `PhaseShifter::process`
(PhaseShifter.h lines 77 to 80): when the sample counter has reached the update
period, recompute all coefficients from the current modulation and reset the
counter to zero. -/
noncomputable def PhaseShifter.updated (ps : PhaseShifter) (modulation : ℝ) : PhaseShifter :=
  if ps.samplesPerFilterUpdate ≤ ps.sampleCounter then
    { ps with filters := updFilters ps.sampleRate modulation ps.filters ps.bands,
              sampleCounter := 0 }
  else ps

/-- The `gammas` vector built in `PhaseShifter::process` (PhaseShifter.h lines
82 to 86): start from the singleton 1, then for the filters in reverse order
push the filter gain times the previous back element.  The vector is modelled
as a stack whose head is the most recently pushed element (the C++ `back()`). -/
noncomputable def gammaStack (filters : List AllPassFilter) : List ℝ :=
  filters.reverse.foldl (fun gs f => f.gainValue * gs.headD 0 :: gs) [1]

/-- The weighted state sum of `PhaseShifter::process` (PhaseShifter.h lines 91
to 96): walk the filters in order, popping one gamma per filter from the stack
and accumulating gamma times the filter storage component. -/
noncomputable def weightedSum : List AllPassFilter → List ℝ → ℝ
  | [], _ => 0
  | f :: fs, gs => gs.headD 0 * f.storageComponent + weightedSum fs gs.tail

/-- The series application of the six filters (PhaseShifter.h lines 100 to
102): feed the value through each filter in order, threading the state. -/
noncomputable def seriesApply : List AllPassFilter → ℝ → ℝ × List AllPassFilter
  | [], x => (x, [])
  | f :: fs, x =>
      let r := f.transform x
      let rest := seriesApply fs r.1
      (rest.1, r.2 :: rest.2)

/-- `PhaseShifter::process` (PhaseShifter.h lines 72 to 106): optional
coefficient refresh, gamma products, weighted feedback sum, the head value
alpha0 * (input + intensity * weightedSum), the series of six filters, and the
sample-counter increment. -/
noncomputable def PhaseShifter.process (ps0 : PhaseShifter) (modulation input : ℝ) :
    ℝ × PhaseShifter :=
  let ps := ps0.updated modulation
  let gammas := gammaStack ps.filters
  let alpha0 := 1 / (1 + ps.intensity * gammas.headD 0)
  let ws := weightedSum ps.filters gammas.tail
  let output := alpha0 * (input + ps.intensity * ws)
  let r := seriesApply ps.filters output
  (r.1, { ps with filters := r.2, sampleCounter := ps.sampleCounter + 1 })

/-! ## Claim C1: the six-stage feedback algorithm -/

/-- The cumulative gamma products exactly as the claim words them:
gamma 0 = 1 and gamma k = (gain of filter 6-k) * gamma (k-1), for a table of
six filters (filter indices are zero-based, so filter 6-k is entry 6-k of the
list). -/
def gammaSpec (fs : List AllPassFilter) : ℕ → ℝ
  | 0 => 1
  | k + 1 => (fs.getD (6 - (k + 1)) AllPassFilter.default).gainValue * gammaSpec fs k

/-- The output of one process step as the claim words it: a weighted sum of the
filters' storage components with weights gamma (5-i), alpha0 =
1 / (1 + intensity * gamma 6), y0 = alpha0 * (input + intensity * weightedSum),
and the six all-pass filters applied in series to y0 with the final filter
output returned. -/
noncomputable def specProcessOutput (fs : List AllPassFilter) (intensity input : ℝ) : ℝ :=
  let ws := ∑ i ∈ Finset.range 6,
    gammaSpec fs (5 - i) * (fs.getD i AllPassFilter.default).storageComponent
  let alpha0 := 1 / (1 + intensity * gammaSpec fs 6)
  (seriesApply fs (alpha0 * (input + intensity * ws))).1

/-- `updateCoefficients` refreshes coefficients in place: the filter count is
preserved. -/
theorem updFilters_length (sr m : ℝ) :
    ∀ (fs : List AllPassFilter) (bs : List Band),
      (updFilters sr m fs bs).length = fs.length
  | [], _ => by cases ‹List Band› <;> simp [updFilters]
  | _ :: _, [] => by simp [updFilters]
  | f :: fs, b :: bs => by simp [updFilters, updFilters_length sr m fs bs]

/-- The conditional refresh keeps the intensity unchanged. -/
theorem updated_intensity (ps : PhaseShifter) (m : ℝ) :
    (ps.updated m).intensity = ps.intensity := by
  unfold PhaseShifter.updated
  split <;> rfl

/-- The conditional refresh keeps the filter count. -/
theorem updated_filters_length (ps : PhaseShifter) (m : ℝ) :
    (ps.updated m).filters.length = ps.filters.length := by
  unfold PhaseShifter.updated
  split <;> simp [updFilters_length]

/-- Core of claim C1, for any shifter whose filter table has six entries: the
output computed by the process body coincides with the claim formula evaluated
on those filters. -/
theorem processBody_eq_spec (ps : PhaseShifter) (x : ℝ) (h : ps.filters.length = 6) :
    (seriesApply ps.filters
        ((1 / (1 + ps.intensity * (gammaStack ps.filters).headD 0))
          * (x + ps.intensity * weightedSum ps.filters (gammaStack ps.filters).tail))).1
      = specProcessOutput ps.filters ps.intensity x := by
  rcases hfs : ps.filters with _ | ⟨f0, _ | ⟨f1, _ | ⟨f2, _ | ⟨f3, _ | ⟨f4, _ | ⟨f5, rest⟩⟩⟩⟩⟩⟩ <;>
    rw [hfs] at h <;> simp only [List.length] at h <;> try omega
  have hrest : rest = [] := by
    cases rest with
    | nil => rfl
    | cons a l => simp at h
  subst hrest
  apply congrArg (fun y => (seriesApply [f0, f1, f2, f3, f4, f5] y).1)
  simp only [specProcessOutput, gammaStack, weightedSum, gammaSpec, List.reverse_cons,
    List.reverse_nil, List.nil_append, List.cons_append, List.foldl_cons, List.foldl_nil,
    List.headD_cons, List.tail_cons, List.getD_cons_zero, List.getD_cons_succ,
    Finset.sum_range_succ, Finset.sum_range_zero]
  norm_num [List.getD_cons_zero, List.getD_cons_succ]
  refine Or.inl (Or.inl ?_)
  ring

/-- Claim C1: for every modulation and input sample, `PhaseShifter::process`
computes its output by the six-stage feedback algorithm: after the conditional
coefficient refresh, cumulative gamma products are taken from the tail filter
gains (gamma 0 = 1, gamma k = gain of filter 6-k times gamma (k-1)), the
storage components are summed with weights gamma (5-i), alpha0 =
1 / (1 + intensity * gamma 6), y0 = alpha0 * (input + intensity * weightedSum),
and the six all-pass filters are applied in series to y0 with the final filter
output returned. -/
theorem process_follows_spec (ps : PhaseShifter) (m x : ℝ) (h : ps.filters.length = 6) :
    (ps.process m x).1 = specProcessOutput ((ps.updated m).filters) ps.intensity x := by
  have hlen : (ps.updated m).filters.length = 6 := by
    rw [updated_filters_length]; exact h
  calc (ps.process m x).1
      = specProcessOutput ((ps.updated m).filters) ((ps.updated m).intensity) x :=
        processBody_eq_spec (ps.updated m) x hlen
    _ = specProcessOutput ((ps.updated m).filters) ps.intensity x := by
        rw [updated_intensity]

/-- A concrete shifter: ideal band table, 44.1 kHz, intensity one half, update
period 20, six default filters. -/
noncomputable def samplePhaseShifter : PhaseShifter :=
  ⟨idealBands, 44100, 1 / 2, 20, 0, List.replicate 6 AllPassFilter.default⟩

/-- Closed instance of C1 on the concrete shifter. -/
theorem process_follows_spec_witness :
    samplePhaseShifter.filters.length = 6
    ∧ (samplePhaseShifter.process 0 1).1
        = specProcessOutput ((samplePhaseShifter.updated 0).filters)
            samplePhaseShifter.intensity 1 :=
  ⟨by simp [samplePhaseShifter], process_follows_spec samplePhaseShifter 0 1
    (by simp [samplePhaseShifter])⟩

/-! ## Claim C4: when coefficients are recomputed -/

/-- Run a sequence of process calls, keeping only the shifter state; each list
entry is a (modulation, input) pair. -/
noncomputable def processTrace (ps : PhaseShifter) : List (ℝ × ℝ) → PhaseShifter
  | [] => ps
  | p :: rest => processTrace ((ps.process p.1 p.2).2) rest

/-- The refresh condition at PhaseShifter.h line 77: the next process call will
recompute the coefficients exactly when the counter has reached the period. -/
def PhaseShifter.updateTriggered (ps : PhaseShifter) : Prop :=
  ps.samplesPerFilterUpdate ≤ ps.sampleCounter

/-- One process call leaves the update period untouched. -/
theorem process_period (ps : PhaseShifter) (m x : ℝ) :
    (ps.process m x).2.samplesPerFilterUpdate = ps.samplesPerFilterUpdate := by
  unfold PhaseShifter.process PhaseShifter.updated
  split <;> rfl

/-- One process call: the counter is reset to zero by an update and incremented
at the end of the call in either case. -/
theorem process_sampleCounter (ps : PhaseShifter) (m x : ℝ) :
    (ps.process m x).2.sampleCounter
      = (if ps.samplesPerFilterUpdate ≤ ps.sampleCounter then 0 else ps.sampleCounter) + 1 := by
  unfold PhaseShifter.process PhaseShifter.updated
  split <;> simp

/-- Applying the filters in series changes only their states, never their
coefficients. -/
theorem seriesApply_coefficients :
    ∀ (fs : List AllPassFilter) (x : ℝ),
      (seriesApply fs x).2.map AllPassFilter.coefficients = fs.map AllPassFilter.coefficients
  | [], _ => rfl
  | f :: fs, x => by
      simp [seriesApply, AllPassFilter.transform, seriesApply_coefficients fs]

/-- One process call: the coefficients after the call are those recomputed from
the current modulation when the counter had reached the period, and exactly the
previous coefficients otherwise. -/
theorem process_coefficients (ps : PhaseShifter) (m x : ℝ) :
    (ps.process m x).2.filters.map AllPassFilter.coefficients
      = if ps.samplesPerFilterUpdate ≤ ps.sampleCounter
        then (updFilters ps.sampleRate m ps.filters ps.bands).map AllPassFilter.coefficients
        else ps.filters.map AllPassFilter.coefficients := by
  unfold PhaseShifter.process PhaseShifter.updated
  split <;> simp [seriesApply_coefficients]

/-- Unfolding a trace from the right. -/
theorem processTrace_append (ps : PhaseShifter) (l : List (ℝ × ℝ)) (a : ℝ × ℝ) :
    processTrace ps (l ++ [a]) = ((processTrace ps l).process a.1 a.2).2 := by
  induction l generalizing ps with
  | nil => rfl
  | cons b t ih => simp [processTrace, ih]

/-- The update period is constant along a trace. -/
theorem processTrace_period (ps : PhaseShifter) (l : List (ℝ × ℝ)) :
    (processTrace ps l).samplesPerFilterUpdate = ps.samplesPerFilterUpdate := by
  induction l generalizing ps with
  | nil => rfl
  | cons b t ih => simp [processTrace, ih, process_period]

/-- Counter value after n calls, starting from a zero counter with period at
least one: the counter cycles as ((n - 1) mod P) + 1. -/
theorem processTrace_counter (ps : PhaseShifter) (inputs : List (ℝ × ℝ))
    (hP : 1 ≤ ps.samplesPerFilterUpdate) (hc : ps.sampleCounter = 0) :
    ∀ n : ℕ, 1 ≤ n → n ≤ inputs.length →
      (processTrace ps (inputs.take n)).sampleCounter
        = ((n : ℤ) - 1) % ps.samplesPerFilterUpdate + 1 := by
  intro n
  induction n with
  | zero => omega
  | succ n ih =>
    intro _ hlen
    by_cases hn : 1 ≤ n
    · -- inductive step: split off the last call
      have hnl : n < inputs.length := by omega
      have htake : inputs.take (n + 1) = inputs.take n ++ [inputs[n]] := by
        rw [List.take_succ, List.getElem?_eq_getElem hnl]
        rfl
      have hcn := ih hn (by omega)
      set P := ps.samplesPerFilterUpdate with hPdef
      have hPtr : (processTrace ps (inputs.take n)).samplesPerFilterUpdate = P :=
        processTrace_period ps _
      rw [htake, processTrace_append, process_sampleCounter, hPtr, hcn]
      have h0r : 0 ≤ ((n : ℤ) - 1) % P := Int.emod_nonneg _ (by omega)
      have hrP : ((n : ℤ) - 1) % P < P := Int.emod_lt_of_pos _ (by omega)
      have hdm : P * (((n : ℤ) - 1) / P) + ((n : ℤ) - 1) % P = (n : ℤ) - 1 :=
        Int.ediv_add_emod _ _
      by_cases hlast : ((n : ℤ) - 1) % P = P - 1
      · have hdm' : P * (((n : ℤ) - 1) / P) + (P - 1) = (n : ℤ) - 1 := by
          rw [hlast] at hdm; exact hdm
        have hsplit : (n : ℤ) = (((n : ℤ) - 1) / P + 1) * P := by
          linear_combination -hdm'
        have hnP : (n : ℤ) % P = 0 := by
          conv_lhs => rw [hsplit]
          exact Int.mul_emod_left _ _
        rw [if_pos (by omega)]
        have hc1 : ((n + 1 : ℕ) : ℤ) - 1 = (n : ℤ) := by push_cast; ring
        rw [hc1, hnP]
      · have hsplit : (n : ℤ) = (((n : ℤ) - 1) % P + 1) + (((n : ℤ) - 1) / P) * P := by
          linear_combination -hdm
        have hnP : (n : ℤ) % P = ((n : ℤ) - 1) % P + 1 := by
          conv_lhs => rw [hsplit]
          rw [Int.add_mul_emod_self, Int.emod_eq_of_lt (by omega) (by omega)]
        rw [if_neg (by omega)]
        have hc1 : ((n + 1 : ℕ) : ℤ) - 1 = (n : ℤ) := by push_cast; ring
        rw [hc1, hnP]
    · -- base case: exactly one call from the initial state
      have hn0 : n = 0 := by omega
      subst hn0
      have hne : inputs ≠ [] := by
        cases inputs with
        | nil => simp at hlen
        | cons a t => simp
      obtain ⟨a, t, rfl⟩ := List.exists_cons_of_ne_nil hne
      simp only [List.take_succ_cons, List.take_zero, processTrace]
      rw [process_sampleCounter, hc]
      rw [if_neg (by omega)]
      simp

/-- Claim C4: coefficients change only at update boundaries.  (a) At
initialisation the coefficients are computed with modulation 0.  (b) A process
call recomputes the coefficients from the current modulation exactly when the
sample counter has reached samplesPerFilterUpdate, and reuses the previous
coefficients unchanged otherwise.  (c) The counter is incremented on every call
and reset by an update.  (d) Starting from a zero counter, call k triggers a
recomputation exactly when k is at least 2 and k - 2 is congruent to P - 1
modulo the period P, i.e. at calls P + 1, 2P + 1, 3P + 1, ...: exactly once
every samplesPerFilterUpdate calls. -/
theorem phaseShifter_update_discipline
    (ps : PhaseShifter) (inputs : List (ℝ × ℝ)) (k : ℕ)
    (hP : 1 ≤ ps.samplesPerFilterUpdate) (hc : ps.sampleCounter = 0)
    (hk1 : 1 ≤ k) (hk2 : k ≤ inputs.length) :
    (∀ sr i0, (ps.initState sr i0).filters = updFilters sr 0 ps.filters ps.bands)
    ∧ (∀ (q : PhaseShifter) (m x : ℝ),
        (q.process m x).2.filters.map AllPassFilter.coefficients
          = if q.samplesPerFilterUpdate ≤ q.sampleCounter
            then (updFilters q.sampleRate m q.filters q.bands).map AllPassFilter.coefficients
            else q.filters.map AllPassFilter.coefficients)
    ∧ (∀ (q : PhaseShifter) (m x : ℝ),
        (q.process m x).2.sampleCounter
          = (if q.samplesPerFilterUpdate ≤ q.sampleCounter then 0 else q.sampleCounter) + 1)
    ∧ ((processTrace ps (inputs.take (k - 1))).updateTriggered
        ↔ 2 ≤ k ∧ ((k : ℤ) - 2) % ps.samplesPerFilterUpdate
            = ps.samplesPerFilterUpdate - 1) := by
  refine ⟨fun sr i0 => rfl, fun q m x => process_coefficients q m x,
    fun q m x => process_sampleCounter q m x, ?_⟩
  by_cases hk : 2 ≤ k
  · have hk1' : 1 ≤ k - 1 := by omega
    have hk2' : k - 1 ≤ inputs.length := by omega
    have hcount := processTrace_counter ps inputs hP hc (k - 1) hk1' hk2'
    have hcast : (((k : ℕ) - 1 : ℕ) : ℤ) = (k : ℤ) - 1 := by
      push_cast [hk1]; omega
    rw [hcast] at hcount
    unfold PhaseShifter.updateTriggered
    rw [processTrace_period, hcount]
    have h0r : 0 ≤ ((k : ℤ) - 1 - 1) % ps.samplesPerFilterUpdate :=
      Int.emod_nonneg _ (by omega)
    have hrP : ((k : ℤ) - 1 - 1) % ps.samplesPerFilterUpdate < ps.samplesPerFilterUpdate :=
      Int.emod_lt_of_pos _ (by omega)
    have heq : (k : ℤ) - 1 - 1 = (k : ℤ) - 2 := by ring
    rw [heq] at hcount h0r hrP ⊢
    constructor
    · intro h
      exact ⟨hk, by omega⟩
    · intro h
      omega
  · have hk1'' : k = 1 := by omega
    subst hk1''
    simp only [Nat.sub_self, List.take_zero, processTrace]
    unfold PhaseShifter.updateTriggered
    rw [hc]
    constructor
    · intro h; omega
    · intro h; omega

/-- Closed instance of C4 on the concrete shifter, three calls, inspecting the
third call. -/
theorem phaseShifter_update_discipline_witness :
    1 ≤ samplePhaseShifter.samplesPerFilterUpdate ∧ samplePhaseShifter.sampleCounter = 0
    ∧ ((∀ sr i0, (samplePhaseShifter.initState sr i0).filters
          = updFilters sr 0 samplePhaseShifter.filters samplePhaseShifter.bands)
      ∧ (∀ (q : PhaseShifter) (m x : ℝ),
          (q.process m x).2.filters.map AllPassFilter.coefficients
            = if q.samplesPerFilterUpdate ≤ q.sampleCounter
              then (updFilters q.sampleRate m q.filters q.bands).map AllPassFilter.coefficients
              else q.filters.map AllPassFilter.coefficients)
      ∧ (∀ (q : PhaseShifter) (m x : ℝ),
          (q.process m x).2.sampleCounter
            = (if q.samplesPerFilterUpdate ≤ q.sampleCounter then 0 else q.sampleCounter) + 1)
      ∧ ((processTrace samplePhaseShifter ((List.replicate 3 ((0 : ℝ), (0 : ℝ))).take (3 - 1))).updateTriggered
          ↔ 2 ≤ 3 ∧ ((3 : ℤ) - 2) % samplePhaseShifter.samplesPerFilterUpdate
              = samplePhaseShifter.samplesPerFilterUpdate - 1)) :=
  ⟨by norm_num [samplePhaseShifter], rfl,
    phaseShifter_update_discipline samplePhaseShifter (List.replicate 3 (0, 0)) 3
      (by norm_num [samplePhaseShifter]) rfl (by norm_num) (by simp)⟩

/-! ## KernelEventProcessor.h: the event-interleaved render loop (claim C2)

`KernelEventProcessor::render` (KernelEventProcessor.h lines 96 to 122) walks
the sorted event list, rendering a segment of frames before each event and then
dispatching the events that are due.  Frame counters are AUAudioFrameCount
(uint32): arithmetic is modelled on ℕ with explicit reduction modulo 2^32.
The function below returns the list of (frameCount, startOffset) segments
passed to renderFrames; it returns none exactly when the C++ loop would fail
to consume its head event and spin forever (which requires an event more than
2^32 frames in the future, so that the uint32 cast truncates the distance). -/

/-- A render event; only the sample time in its header matters to the loop. -/
structure REvent where
  sampleTime : ℤ

/-- Conversion of a non-negative Int64 sample-time difference to
AUAudioFrameCount: truncation modulo 2^32. -/
def au32 (z : ℤ) : ℕ := z.toNat % 4294967296

/-- The uint32 difference frameCount - framesRemaining computed by the render
loop for the segment start offset. -/
def off32 (frameCount framesRemaining : ℕ) : ℕ :=
  (frameCount + 4294967296 - framesRemaining) % 4294967296

/-- The segments rendered by `KernelEventProcessor::render`: while frames
remain, render up to the next event time (`delta = max(eventTime - now, 0)`,
cast to uint32, with no clamp against framesRemaining), subtract the segment
length from framesRemaining in uint32 arithmetic, then consume the events that
are due.  When the event list is exhausted the remaining frames are rendered
in one final segment. -/
def renderSegments (frameCount : ℕ) : ℤ → ℕ → List REvent → Option (List (ℕ × ℕ))
  | _, framesRemaining, [] =>
      if framesRemaining = 0 then some []
      else some [(framesRemaining, off32 frameCount framesRemaining)]
  | now, framesRemaining, e :: rest =>
      if framesRemaining = 0 then some []
      else
        let delta := au32 (max (e.sampleTime - now) 0)
        if delta = 0 then
          if e.sampleTime ≤ now then renderSegments frameCount now framesRemaining rest
          else none
        else
          let now' := now + (delta : ℤ)
          let rem' := (framesRemaining + 4294967296 - delta) % 4294967296
          if e.sampleTime ≤ now' then
            (renderSegments frameCount now' rem' rest).map
              (fun segs => (delta, off32 frameCount framesRemaining) :: segs)
          else none

/-- Claim C2 counterexample: one frame to render (frameCount = 1, timestamp 0)
and a single event at sample time 5.  The loop computes delta = 5 without
clamping it to framesRemaining = 1, renders a 5-frame segment, and the uint32
framesRemaining underflows to 4294967292, which is then rendered as a second
segment: 4294967297 frames in place of 1. -/
theorem render_no_clamp_counterexample :
    renderSegments 1 0 1 [⟨5⟩] = some [(5, 0), (4294967292, 5)]
    ∧ ¬ (5 ≤ 1) ∧ (5 : ℕ) + 4294967292 ≠ 1 := by
  refine ⟨by decide, by decide, by decide⟩

/-- When every event lies inside the current window, the rendered segments
exist and account for exactly the remaining frames. -/
theorem renderSegments_sum (fc : ℕ) :
    ∀ (events : List REvent) (now : ℤ) (rem : ℕ),
      rem < 4294967296 →
      (∀ e ∈ events, e.sampleTime ≤ now + rem) →
      ∃ segs, renderSegments fc now rem events = some segs
        ∧ (segs.map Prod.fst).sum = rem := by
  intro events
  induction events with
  | nil =>
    intro now rem hrem _
    by_cases h0 : rem = 0
    · exact ⟨[], by simp [renderSegments, h0], by simp [h0]⟩
    · exact ⟨[(rem, off32 fc rem)], by simp [renderSegments, h0], by simp⟩
  | cons e rest ih =>
    intro now rem hrem hb
    by_cases h0 : rem = 0
    · exact ⟨[], by simp [renderSegments, h0], by simp [h0]⟩
    · have he : e.sampleTime ≤ now + rem := hb e (List.mem_cons_self e rest)
      by_cases hle : e.sampleTime ≤ now
      · have hd0 : au32 (max (e.sampleTime - now) 0) = 0 := by
          have : max (e.sampleTime - now) 0 = 0 := by omega
          simp [au32, this]
        obtain ⟨segs, hseg, hsum⟩ := ih now rem hrem
          (fun e' he' => hb e' (List.mem_cons_of_mem e he'))
        refine ⟨segs, ?_, hsum⟩
        simp only [renderSegments, h0, if_false, hd0, if_true, hle]
        simp [hseg]
      · have hgt : now < e.sampleTime := by omega
        have hdpos : 0 < (e.sampleTime - now).toNat := by omega
        have hdle : (e.sampleTime - now).toNat ≤ rem := by omega
        have hdu : au32 (max (e.sampleTime - now) 0) = (e.sampleTime - now).toNat := by
          have hmax : max (e.sampleTime - now) 0 = e.sampleTime - now := by omega
          rw [au32, hmax]
          exact Nat.mod_eq_of_lt (by omega)
        set d := (e.sampleTime - now).toNat with hd
        have hnow' : now + (d : ℤ) = e.sampleTime := by omega
        have hrem' : (rem + 4294967296 - d) % 4294967296 = rem - d := by
          have h1 : rem + 4294967296 - d = (rem - d) + 4294967296 := by omega
          rw [h1, Nat.add_mod_right]
          exact Nat.mod_eq_of_lt (by omega)
        obtain ⟨segs, hseg, hsum⟩ := ih (now + (d : ℤ)) (rem - d) (by omega)
          (fun e' he' => by
            have := hb e' (List.mem_cons_of_mem e he')
            omega)
        refine ⟨(d, off32 fc rem) :: segs, ?_, ?_⟩
        · simp only [renderSegments, h0, if_false, hdu]
          rw [if_neg (by omega), hrem']
          rw [if_pos (by omega)]
          simp [hseg]
        · simp only [List.map_cons, List.sum_cons, hsum]
          omega

/-- Claim C2 (amended): the loop applies no clamp, but whenever every event of
the (sorted) list falls inside the rendered block — its sample time is at most
timestamp + N — no segment outruns the remaining frames, framesRemaining never
underflows, the loop terminates, and the segments together produce exactly N
output frames. -/
theorem render_exact_frames (fc : ℕ) (now : ℤ) (events : List REvent)
    (hfc : fc < 4294967296)
    (hb : ∀ e ∈ events, e.sampleTime ≤ now + fc)
    (_hs : List.Chain' (fun a b => a.sampleTime ≤ b.sampleTime) events) :
    ∃ segs, renderSegments fc now fc events = some segs
      ∧ (segs.map Prod.fst).sum = fc :=
  renderSegments_sum fc events now fc hfc hb

/-- Closed instance of C2 (amended): a 4-frame block with one event at sample
time 2 renders segments of 2 and 2 frames. -/
theorem render_exact_frames_witness :
    (4 : ℕ) < 4294967296
    ∧ (∀ e ∈ [(⟨2⟩ : REvent)], e.sampleTime ≤ 0 + (4 : ℕ))
    ∧ (∃ segs, renderSegments 4 0 4 [⟨2⟩] = some segs
        ∧ (segs.map Prod.fst).sum = 4) :=
  ⟨by decide, by decide,
    render_exact_frames 4 0 [⟨2⟩] (by decide) (by decide) (by simp)⟩

/-! ## Kernel.hpp: the per-frame render loop (claims C3 and C7)

`Kernel::doRendering` (Kernel.hpp lines 116 to 147) reads the ramped parameter
values, ticks the LFO once per frame, and drives one phase shifter per channel
through `writeSample`.  The DSPHeaders support types it uses (LFO.hpp and the
Parameters family) are not among the sources, so they are modelled from the
spec below.  Input/output buffers are modelled frame-major: a block is a list
of frames, each frame a list of per-channel samples. -/

/-- Modelled from the spec: a ramped Parameter (DSPHeaders/Parameters, absent
from src/).  It holds a current value, a per-frame ramp step, and the number of
ramp frames remaining. -/
structure Param where
  value : ℝ
  stepSize : ℝ
  rampRemaining : ℕ

/-- Modelled from the spec: `frameValue()` advances the ramp by one step and
returns the new current value; the remaining-frames counter decrements to zero
and the value then stays put. -/
noncomputable def Param.frameValue (p : Param) : ℝ × Param :=
  if p.rampRemaining = 0 then (p.value, p)
  else (p.value + p.stepSize, ⟨p.value + p.stepSize, p.stepSize, p.rampRemaining - 1⟩)

/-- Modelled from the spec: LFO state (LFO.hpp, absent from src/): a phase
accumulator in [0, 1) and a per-sample phase increment. -/
structure LFOState where
  phase : ℝ
  phaseIncrement : ℝ

/-- Modelled from the spec: the triangle waveform,
4x - 1 for x < 1/2 and 3 - 4x otherwise. -/
noncomputable def triangleWave (x : ℝ) : ℝ := if x < 1 / 2 then 4 * x - 1 else 3 - 4 * x

/-- Modelled from the spec: the phase wraps by subtracting 1 when it reaches 1. -/
noncomputable def wrapPhase (x : ℝ) : ℝ := if 1 ≤ x then x - 1 else x

/-- Modelled from the spec: `value()` returns the waveform at the current phase
without advancing it. -/
noncomputable def LFOState.value (l : LFOState) : ℝ := triangleWave l.phase

/-- Modelled from the spec: `quadPhaseValue()` returns the waveform a quarter
period ahead, with wrapping. -/
noncomputable def LFOState.quadPhaseValue (l : LFOState) : ℝ :=
  triangleWave (wrapPhase (l.phase + 1 / 4))

/-- Modelled from the spec: `increment()` advances the phase by the per-sample
increment and wraps it into [0, 1). -/
noncomputable def LFOState.tick (l : LFOState) : LFOState :=
  { l with phase := wrapPhase (l.phase + l.phaseIncrement) }

/-- The `Kernel` state (Kernel.hpp lines 151 to 158): the update period, the
LFO, the four ramped parameters, the odd90 flag, and one phase shifter per
channel. -/
structure KernelState where
  samplesPerFilterUpdate : ℤ
  lfo : LFOState
  depth : Param
  intensity : Param
  dry : Param
  wet : Param
  odd90 : Bool
  phaseShifters : List PhaseShifter

/-- `Kernel::writeSample` (Kernel.hpp lines 105 to 114): for each channel, set
the shifter intensity, process the input sample with the even or odd
modulation-depth according to channel parity, and emit
wetMix * filtered + dryMix * input.  The channel loop runs over the input
channels; the per-channel output samples and updated shifters are returned. -/
noncomputable def writeSample (intensity evenModDepth oddModDepth wetMix dryMix : ℝ) :
    ℕ → List PhaseShifter → List ℝ → List ℝ × List PhaseShifter
  | _, shifters, [] => ([], shifters)
  | _, [], _ :: _ => ([], [])
  | channel, s :: ss, x :: xs =>
      let s1 := s.setIntensity intensity
      let r := s1.process (if channel % 2 = 1 then oddModDepth else evenModDepth) x
      let rest := writeSample intensity evenModDepth oddModDepth wetMix dryMix (channel + 1) ss xs
      ((wetMix * r.1 + dryMix * x) :: rest.1, r.2 :: rest.2)

/-- The per-frame loop of the multi-frame branch of `Kernel::doRendering`
(Kernel.hpp lines 132 to 145): each frame computes the modulation depths from
the LFO and the depth value fixed for the whole segment, ticks the LFO, and
writes one sample per channel.  The source splits this loop into an odd90 and
a non-odd90 copy as an optimisation; both compute exactly this. -/
noncomputable def renderLoop (odd90 : Bool) (depthVal intensityVal wetVal dryVal : ℝ) :
    ℕ → LFOState → List PhaseShifter → List (List ℝ) →
      LFOState × List PhaseShifter × List (List ℝ)
  | 0, lfo, shifters, _ => (lfo, shifters, [])
  | n + 1, lfo, shifters, frames =>
      let evenModDepth := lfo.value * depthVal
      let oddModDepth := if odd90 then lfo.quadPhaseValue * depthVal else evenModDepth
      let lfo' := lfo.tick
      let w := writeSample intensityVal evenModDepth oddModDepth wetVal dryVal
        0 shifters (frames.headD [])
      let rest := renderLoop odd90 depthVal intensityVal wetVal dryVal n lfo' w.2 frames.tail
      (rest.1, rest.2.1, w.1 :: rest.2.2)

/-- `Kernel::doRendering` (Kernel.hpp lines 116 to 147): the one-frame branch
reads depth, intensity, wet and dry through `frameValue()` around a single
`writeSample`; the multi-frame branch reads each of the four through
`frameValue()` once, before the loop, and then holds them constant over the
whole segment. -/
noncomputable def doRendering (st : KernelState) (frames : List (List ℝ)) (frameCount : ℕ) :
    KernelState × List (List ℝ) :=
  if frameCount = 1 then
    let d := st.depth.frameValue
    let evenModDepth := st.lfo.value * d.1
    let oddModDepth := if st.odd90 then st.lfo.quadPhaseValue * d.1 else evenModDepth
    let lfo' := st.lfo.tick
    let i := st.intensity.frameValue
    let w := st.wet.frameValue
    let dr := st.dry.frameValue
    let ws := writeSample i.1 evenModDepth oddModDepth w.1 dr.1 0 st.phaseShifters
      (frames.headD [])
    ({ st with lfo := lfo', depth := d.2, intensity := i.2, wet := w.2, dry := dr.2,
               phaseShifters := ws.2 }, [ws.1])
  else
    let d := st.depth.frameValue
    let i := st.intensity.frameValue
    let w := st.wet.frameValue
    let dr := st.dry.frameValue
    let r := renderLoop st.odd90 d.1 i.1 w.1 dr.1 frameCount st.lfo st.phaseShifters frames
    ({ st with lfo := r.1, depth := d.2, intensity := i.2, wet := w.2, dry := dr.2,
               phaseShifters := r.2.1 }, r.2.2)

/-! ## Claim C3 -/

/-- One `frameValue()` call consumes exactly one ramp frame. -/
theorem frameValue_rampRemaining (p : Param) :
    (p.frameValue).2.rampRemaining = p.rampRemaining - 1 := by
  unfold Param.frameValue
  by_cases h : p.rampRemaining = 0 <;> simp [h]

/-- Claim C3 (amended): each of depth, intensity, dry and wet is read through
`frameValue()` exactly once per `doRendering` call, advancing its ramp by one
step per rendered segment, not once per frame; within a multi-frame segment
the four values are held constant, so per-frame ramp accuracy holds only when
segments are one frame long. -/
theorem kernel_ramp_once_per_segment (st : KernelState) (frames : List (List ℝ)) (fc : ℕ)
    (_hfc : 1 ≤ fc) :
    (doRendering st frames fc).1.depth.rampRemaining = st.depth.rampRemaining - 1
    ∧ (doRendering st frames fc).1.intensity.rampRemaining = st.intensity.rampRemaining - 1
    ∧ (doRendering st frames fc).1.wet.rampRemaining = st.wet.rampRemaining - 1
    ∧ (doRendering st frames fc).1.dry.rampRemaining = st.dry.rampRemaining - 1 := by
  unfold doRendering
  by_cases h1 : fc = 1 <;>
    simp [h1, frameValue_rampRemaining]

/-- A concrete kernel state: the depth parameter is mid-ramp with five frames
to go; no channels. -/
noncomputable def rampKernelState : KernelState :=
  ⟨20, ⟨0, 0⟩, ⟨0, 1, 5⟩, ⟨0, 0, 0⟩, ⟨1, 0, 0⟩, ⟨1, 0, 0⟩, false, []⟩

/-- Claim C3 counterexample: rendering a two-frame segment advances the depth
ramp by one step (5 remaining becomes 4), not by one step per frame (which
would leave 3): `frameValue()` is not called once per frame. -/
theorem kernel_ramp_counterexample :
    (doRendering rampKernelState [[], []] 2).1.depth.rampRemaining = 4
    ∧ (4 : ℕ) ≠ 5 - 2 := by
  constructor
  · simp [doRendering, rampKernelState, Param.frameValue]
  · decide

/-- Closed instance of C3 (amended) on the concrete state with a one-frame
segment. -/
theorem kernel_ramp_once_per_segment_witness :
    (1 : ℕ) ≤ 1
    ∧ ((doRendering rampKernelState [[]] 1).1.depth.rampRemaining
          = rampKernelState.depth.rampRemaining - 1
      ∧ (doRendering rampKernelState [[]] 1).1.intensity.rampRemaining
          = rampKernelState.intensity.rampRemaining - 1
      ∧ (doRendering rampKernelState [[]] 1).1.wet.rampRemaining
          = rampKernelState.wet.rampRemaining - 1
      ∧ (doRendering rampKernelState [[]] 1).1.dry.rampRemaining
          = rampKernelState.dry.rampRemaining - 1) :=
  ⟨le_refl 1, kernel_ramp_once_per_segment rampKernelState [[]] 1 (le_refl 1)⟩

/-! ## Claim C7: container sizes on the render path -/

/-- The successive sizes taken by the local `gammas` vector while
`PhaseShifter::process` builds it (PhaseShifter.h lines 83 to 86): the size
after construction, then after each of the push_backs performed by the
reverse walk over the filters. -/
noncomputable def gammaStackSizes (filters : List AllPassFilter) : List ℕ :=
  (filters.reverse.scanl (fun gs f => f.gainValue * gs.headD 0 :: gs) [1]).map List.length

/-- `writeSample` touches each shifter in place: the shifter count never
changes. -/
theorem writeSample_shifter_count (i e o w d : ℝ) :
    ∀ (c : ℕ) (ss : List PhaseShifter) (xs : List ℝ),
      (writeSample i e o w d c ss xs).2.length = ss.length
  | _, ss, [] => by cases ss <;> simp [writeSample]
  | _, [], _ :: _ => by simp [writeSample]
  | c, s :: ss, x :: xs => by
      simp [writeSample, writeSample_shifter_count i e o w d (c + 1) ss xs]

/-- The per-frame loop preserves the shifter count. -/
theorem renderLoop_shifter_count (odd90 : Bool) (dv iv wv drv : ℝ) :
    ∀ (n : ℕ) (lfo : LFOState) (ss : List PhaseShifter) (frames : List (List ℝ)),
      (renderLoop odd90 dv iv wv drv n lfo ss frames).2.1.length = ss.length
  | 0, _, _, _ => rfl
  | n + 1, lfo, ss, frames => by
      simp [renderLoop, renderLoop_shifter_count odd90 dv iv wv drv n,
        writeSample_shifter_count]

/-- `doRendering` preserves the shifter count in both branches. -/
theorem doRendering_shifter_count (st : KernelState) (frames : List (List ℝ)) (fc : ℕ) :
    (doRendering st frames fc).1.phaseShifters.length = st.phaseShifters.length := by
  unfold doRendering
  by_cases h1 : fc = 1 <;>
    simp [h1, writeSample_shifter_count, renderLoop_shifter_count]

/-- Claim C7 (amended): the phaseShifters vector is sized at format-setup time
and no render call changes its size; but `PhaseShifter::process` builds a
local `gammas` vector on every call, growing it from one element to seven
(construction plus six push_backs) before draining it, so the render path does
allocate and grow that container. -/
theorem render_vector_sizes (st : KernelState) (frames : List (List ℝ)) (fc : ℕ)
    (fs : List AllPassFilter) (hlen : fs.length = 6) :
    (doRendering st frames fc).1.phaseShifters.length = st.phaseShifters.length
    ∧ gammaStackSizes fs = [1, 2, 3, 4, 5, 6, 7]
    ∧ (gammaStack fs).length = 7 := by
  refine ⟨doRendering_shifter_count st frames fc, ?_, ?_⟩ <;>
  · rcases hfs : fs with _ | ⟨f0, _ | ⟨f1, _ | ⟨f2, _ | ⟨f3, _ | ⟨f4, _ | ⟨f5, rest⟩⟩⟩⟩⟩⟩ <;>
      rw [hfs] at hlen <;> simp only [List.length] at hlen <;> try omega
    have hrest : rest = [] := by
      cases rest with
      | nil => rfl
      | cons a l => simp at hlen
    subst hrest
    simp [gammaStackSizes, gammaStack, List.scanl]

/-- Claim C7 counterexample: on a table of six (default) filters the local
`gammas` vector passes through sizes 1, 2, ..., 7 inside a single `process`
call; it therefore grows during render, contradicting the claim that no
container on the render path grows. -/
theorem gammas_growth_counterexample :
    gammaStackSizes (List.replicate 6 AllPassFilter.default) = [1, 2, 3, 4, 5, 6, 7]
    ∧ (gammaStack (List.replicate 6 AllPassFilter.default)).length = 7
    ∧ (1 : ℕ) ≠ 7 := by
  refine ⟨?_, ?_, by decide⟩ <;>
    simp [gammaStackSizes, gammaStack, List.replicate, List.scanl]

/-- Closed instance of C7 (amended) on the concrete kernel state and six
default filters. -/
theorem render_vector_sizes_witness :
    (List.replicate 6 AllPassFilter.default).length = 6
    ∧ ((doRendering rampKernelState [[]] 1).1.phaseShifters.length
          = rampKernelState.phaseShifters.length
      ∧ gammaStackSizes (List.replicate 6 AllPassFilter.default) = [1, 2, 3, 4, 5, 6, 7]
      ∧ (gammaStack (List.replicate 6 AllPassFilter.default)).length = 7) :=
  ⟨by simp, render_vector_sizes rampKernelState [[]] 1
    (List.replicate 6 AllPassFilter.default) (by simp)⟩

/-! ## Claim C8: bypass identity

`KernelEventProcessor::renderFrames` (KernelEventProcessor.h lines 166 to 181)
in bypass mode: for each channel, when the input and output data pointers
coincide nothing is done; otherwise frameCount samples starting at
processedFrameCount are copied from the input buffer to the output buffer.
Samples are modelled with an arbitrary type, so equality is bitwise. -/

/-- One channel of the bypass copy: its input buffer, its output buffer, and
whether the two mData pointers coincide (in-place processing).  When samePtr
is set the two lists model the same memory, so outData = inData. -/
structure BypassChannel (α : Type) where
  inData : List α
  outData : List α
  samePtr : Bool

/-- The bypass branch of `renderFrames` for one channel: skip when in-place,
else memcpy frameCount samples at offset processedFrameCount. -/
def bypassRenderChannel {α : Type} (frameCount processedFrameCount : ℕ)
    (ch : BypassChannel α) : BypassChannel α :=
  if ch.samePtr then ch
  else { ch with outData :=
          ch.outData.take processedFrameCount
          ++ (ch.inData.drop processedFrameCount).take frameCount
          ++ ch.outData.drop (processedFrameCount + frameCount) }

/-- The bypass branch of `renderFrames` over all channels. -/
def bypassRenderFrames {α : Type} (frameCount processedFrameCount : ℕ)
    (chs : List (BypassChannel α)) : List (BypassChannel α) :=
  chs.map (bypassRenderChannel frameCount processedFrameCount)

/-- The single-channel bypass identity: after the copy, every frame of the
rendered range holds the input sample. -/
theorem bypassRenderChannel_identity {α : Type} (d : α) (fc off : ℕ)
    (ch : BypassChannel α)
    (halias : ch.samePtr = true → ch.outData = ch.inData)
    (hlen : ch.outData.length = ch.inData.length) :
    ∀ i, off ≤ i → i < off + fc → i < ch.inData.length →
      (bypassRenderChannel fc off ch).outData.getD i d = ch.inData.getD i d := by
  intro i hoff hifc hilen
  unfold bypassRenderChannel
  by_cases hsame : ch.samePtr
  · rw [if_pos hsame, halias hsame]
  · rw [if_neg hsame]
    have hofflen : off ≤ ch.outData.length := by omega
    have h1 : (ch.outData.take off).length = off := by
      rw [List.length_take]; omega
    have h2 : ((ch.inData.drop off).take fc).length = min fc (ch.inData.length - off) := by
      rw [List.length_take, List.length_drop]
    have hi2 : i - off < min fc (ch.inData.length - off) := by omega
    rw [List.getD_eq_getElem?_getD, List.getD_eq_getElem?_getD]
    have hlen12 : (ch.outData.take off ++ (ch.inData.drop off).take fc).length
        = off + min fc (ch.inData.length - off) := by
      rw [List.length_append, h1, h2]
    rw [List.getElem?_append_left (by rw [hlen12]; omega)]
    rw [List.getElem?_append_right (by rw [h1]; omega)]
    rw [h1]
    rw [List.getElem?_take_of_lt (by omega)]
    rw [List.getElem?_drop]
    have hoi : off + (i - off) = i := by omega
    rw [hoi]

/-- Claim C8: with bypass enabled, the block-render step copies each channel's
input samples to its output buffer and skips the copy when the input and
output pointers coincide; as a result, for every channel and every frame of
the rendered range the output equals the input bitwise. -/
theorem bypass_identity {α : Type} (d : α) (chs : List (BypassChannel α)) (fc off : ℕ)
    (halias : ∀ ch ∈ chs, ch.samePtr = true → ch.outData = ch.inData)
    (hlen : ∀ ch ∈ chs, ch.outData.length = ch.inData.length) :
    (∀ ch ∈ chs, ch.samePtr = true → bypassRenderChannel fc off ch = ch)
    ∧ ∀ ch ∈ chs, ∀ i, off ≤ i → i < off + fc → i < ch.inData.length →
        (bypassRenderChannel fc off ch).outData.getD i d = ch.inData.getD i d := by
  constructor
  · intro ch _ hsame
    unfold bypassRenderChannel
    rw [if_pos hsame]
  · intro ch hch i hoff hifc hilen
    exact bypassRenderChannel_identity d fc off ch (halias ch hch) (hlen ch hch)
      i hoff hifc hilen

/-- Closed instance of C8: two channels (one in-place, one copied), a
three-frame block rendered from offset zero. -/
theorem bypass_identity_witness :
    (∀ ch ∈ [(⟨[10, 20, 30], [10, 20, 30], true⟩ : BypassChannel ℕ),
             ⟨[1, 2, 3], [7, 8, 9], false⟩],
        ch.samePtr = true → ch.outData = ch.inData)
    ∧ (∀ ch ∈ [(⟨[10, 20, 30], [10, 20, 30], true⟩ : BypassChannel ℕ),
               ⟨[1, 2, 3], [7, 8, 9], false⟩],
        ch.outData.length = ch.inData.length)
    ∧ ((∀ ch ∈ [(⟨[10, 20, 30], [10, 20, 30], true⟩ : BypassChannel ℕ),
                ⟨[1, 2, 3], [7, 8, 9], false⟩],
          ch.samePtr = true → bypassRenderChannel 3 0 ch = ch)
      ∧ ∀ ch ∈ [(⟨[10, 20, 30], [10, 20, 30], true⟩ : BypassChannel ℕ),
                ⟨[1, 2, 3], [7, 8, 9], false⟩],
          ∀ i, 0 ≤ i → i < 0 + 3 → i < ch.inData.length →
            (bypassRenderChannel 3 0 ch).outData.getD i 0 = ch.inData.getD i 0) :=
  ⟨by decide, by decide,
    bypass_identity 0 [⟨[10, 20, 30], [10, 20, 30], true⟩, ⟨[1, 2, 3], [7, 8, 9], false⟩]
      3 0 (by decide) (by decide)⟩

/-! ## SimplyPhaserKernel.h: parameter get and set (claims C9 and C10)

`SimplyPhaserKernel::setParameterValue` (SimplyPhaserKernel.h lines 55 to 94)
and `getParameterValue` (lines 102 to 112) switch on the parameter address.
The `FilterParameterAddress` constants are declared in the Swift framework,
which is not among the sources; they are modelled from the spec as six
distinct integer identifiers.  Parameter values (AUValue floats) are embedded
as rationals so that these operations stay executable.  The kernel state keeps
the fields the switch can touch: the six parameters, the LFO frequency set by
the Rate case, and the per-channel shifter intensities set by the Intensity
case through `intensityChanged`. -/

/-- Modelled from the spec: the stable integer identifier for Rate. -/
def addrRate : ℕ := 0

/-- Modelled from the spec: the stable integer identifier for Depth. -/
def addrDepth : ℕ := 1

/-- Modelled from the spec: the stable integer identifier for Intensity. -/
def addrIntensity : ℕ := 2

/-- Modelled from the spec: the stable integer identifier for DryMix. -/
def addrDryMix : ℕ := 3

/-- Modelled from the spec: the stable integer identifier for WetMix. -/
def addrWetMix : ℕ := 4

/-- Modelled from the spec: the stable integer identifier for Odd90. -/
def addrOdd90 : ℕ := 5

/-- The fields of `SimplyPhaserKernel` read or written by the parameter
switches (SimplyPhaserKernel.h lines 150 to 157). -/
structure SPKState where
  rate : ℚ
  depth : ℚ
  intensity : ℚ
  dryMix : ℚ
  wetMix : ℚ
  odd90 : Bool
  lfoFrequency : ℚ
  shifterIntensities : List ℚ

/-- `SimplyPhaserKernel::setParameterValue` (SimplyPhaserKernel.h lines 55 to
94): Rate stores the value and forwards it to the LFO; Depth, Intensity,
DryMix and WetMix store value / 100 (Intensity also refreshes every shifter's
intensity); Odd90 stores value > 0; every case returns early when the stored
value would not change; an unknown address changes nothing. -/
def SPKState.setParameterValue (st : SPKState) (address : ℕ) (value : ℚ) : SPKState :=
  if address = addrRate then
    (if value = st.rate then st
     else { st with rate := value, lfoFrequency := value })
  else if address = addrDepth then
    (if value / 100 = st.depth then st else { st with depth := value / 100 })
  else if address = addrIntensity then
    (if value / 100 = st.intensity then st
     else { st with intensity := value / 100,
                    shifterIntensities := st.shifterIntensities.map fun _ => value / 100 })
  else if address = addrDryMix then
    (if value / 100 = st.dryMix then st else { st with dryMix := value / 100 })
  else if address = addrWetMix then
    (if value / 100 = st.wetMix then st else { st with wetMix := value / 100 })
  else if address = addrOdd90 then
    { st with odd90 := decide (value > 0) }
  else st

/-- `SimplyPhaserKernel::getParameterValue` (SimplyPhaserKernel.h lines 102 to
112): the stored value, times 100 for the percentage parameters, 1 or 0 for
Odd90, and 0 for any unknown address. -/
def SPKState.getParameterValue (st : SPKState) (address : ℕ) : ℚ :=
  if address = addrRate then st.rate
  else if address = addrDepth then st.depth * 100
  else if address = addrIntensity then st.intensity * 100
  else if address = addrDryMix then st.dryMix * 100
  else if address = addrWetMix then st.wetMix * 100
  else if address = addrOdd90 then (if st.odd90 then 1 else 0)
  else 0

/-! ## Claim C9 -/

/-- Claim C9: for every parameter address that is none of the six known
addresses, getParameterValue returns 0 and setParameterValue leaves every
kernel field unchanged. -/
theorem unknown_address_ignored (st : SPKState) (address : ℕ) (value : ℚ)
    (h : address ≠ addrRate ∧ address ≠ addrDepth ∧ address ≠ addrIntensity
      ∧ address ≠ addrDryMix ∧ address ≠ addrWetMix ∧ address ≠ addrOdd90) :
    st.getParameterValue address = 0
    ∧ st.setParameterValue address value = st := by
  obtain ⟨h0, h1, h2, h3, h4, h5⟩ := h
  constructor
  · unfold SPKState.getParameterValue
    rw [if_neg h0, if_neg h1, if_neg h2, if_neg h3, if_neg h4, if_neg h5]
  · unfold SPKState.setParameterValue
    rw [if_neg h0, if_neg h1, if_neg h2, if_neg h3, if_neg h4, if_neg h5]

/-- A concrete kernel parameter state. -/
def sampleSPKState : SPKState := ⟨3, 1 / 2, 1 / 4, 1, 0, false, 3, [1 / 4, 1 / 4]⟩

/-- Closed instance of C9 at the unknown address 100. -/
theorem unknown_address_ignored_witness :
    ((100 : ℕ) ≠ addrRate ∧ (100 : ℕ) ≠ addrDepth ∧ (100 : ℕ) ≠ addrIntensity
      ∧ (100 : ℕ) ≠ addrDryMix ∧ (100 : ℕ) ≠ addrWetMix ∧ (100 : ℕ) ≠ addrOdd90)
    ∧ (sampleSPKState.getParameterValue 100 = 0
      ∧ sampleSPKState.setParameterValue 100 7 = sampleSPKState) :=
  ⟨by decide, unknown_address_ignored sampleSPKState 100 7 (by decide)⟩

/-! ## Claim C10 -/

/-- Claim C10: setParameterValue at the Odd90 address sets the odd90 flag to
true exactly when the value is positive (zero and every negative value give
false), and getParameterValue at the Odd90 address returns exactly 1 when the
flag is set and exactly 0 otherwise. -/
theorem odd90_set_get (st : SPKState) (value : ℚ) :
    ((st.setParameterValue addrOdd90 value).odd90 = true ↔ 0 < value)
    ∧ st.getParameterValue addrOdd90 = (if st.odd90 then (1 : ℚ) else 0) := by
  constructor
  · unfold SPKState.setParameterValue
    norm_num [addrRate, addrDepth, addrIntensity, addrDryMix, addrWetMix, addrOdd90]
  · unfold SPKState.getParameterValue
    norm_num [addrRate, addrDepth, addrIntensity, addrDryMix, addrWetMix, addrOdd90]

end SimplyPhaser
